import Mathlib

/-!
Verification of the cloudwatch-log-viewer core against its specification.

The definitions below are a shallow embedding of the repository's code:

* `getLoop` / `getHandler`     — the GET handler's do/while pagination loop
  over `DescribeLogGroups` (src/app/api/cloudwatch/route.ts, GET).
* `putHandler`                 — the PUT handler's single `DescribeLogStreams`
  call (src/app/api/cloudwatch/route.ts, PUT).
* `effectiveLimit`, `buildFilterParams` — the POST handler's construction of
  the `FilterLogEventsCommandInput` (src/app/api/cloudwatch/route.ts, POST),
  with JavaScript truthiness (`0`, `""`, absent are all falsy) made explicit.
* `filteredLogGroups` / `filteredLogStreams` — the debounced-query filters of
  CloudWatchLogViewer (src/app/components/AdvancedSearch.tsx).
* `debounceEmissions`          — the `useDebounce` hook's timer semantics
  (src/app/components/utils.ts): each raw input schedules an emission `d`
  time units later and clears the previous pending timer.
* `step` / `runActions`        — a small-step machine for the viewer's
  selection state: the group-change effect, `searchLogs`, and the
  unconditional completion handlers of `fetchLogStreams` / `searchLogs`.
* `dropStep` / `runDropdown` / `scrollTarget` — the dropdown active-index and
  scroll-to-index logic (arrow-key handlers, `onMouseEnter`, and the
  scroll-to-active-index effects).
-/

/-! ## GET /api/cloudwatch — log-group pagination (route.ts, GET) -/

/-- One response of `DescribeLogGroups`: the code reads `data.logGroups || []`
and `data.nextToken`, so `logGroups` may be absent. -/
structure GroupPage (α τ : Type) where
  logGroups : Option (List α)
  nextToken : Option τ
deriving DecidableEq

/-- The GET handler's do/while loop: send `DescribeLogGroups {limit: 50, nextToken}`,
append `data.logGroups || []` to the accumulator, continue while `nextToken`
is present.  `fuel` bounds the number of iterations; on a backend emitting
finitely many pages the loop needs exactly one unit of fuel per page. -/
def getLoop {α τ : Type} (backend : Option τ → GroupPage α τ) :
    Nat → Option τ → List α → List α
  | 0, _, acc => acc
  | fuel + 1, tok, acc =>
    let data := backend tok
    let acc2 := acc ++ data.logGroups.getD []
    match data.nextToken with
    | none => acc2
    | some t => getLoop backend fuel (some t) acc2

/-- The GET handler: start with an empty accumulator and no token. -/
def getHandler {α τ : Type} (backend : Option τ → GroupPage α τ) (fuel : Nat) : List α :=
  getLoop backend fuel none []

/-- A backend emits the page sequence `pages` along the token chain `tk`:
the first request (no token) returns page 0, the request with token `tk i`
returns page `i`, and only the last page omits the continuation token. -/
def PagedShape {α τ : Type} (backend : Option τ → GroupPage α τ)
    (pages : List (List α)) (tk : Nat → τ) : Prop :=
  backend none =
    ⟨some (pages.getD 0 []), if 1 < pages.length then some (tk 1) else none⟩ ∧
  ∀ i, i < pages.length → 0 < i →
    backend (some (tk i)) =
      ⟨some (pages.getD i []), if i + 1 < pages.length then some (tk (i + 1)) else none⟩

/-! ## PUT /api/cloudwatch — log-stream listing (route.ts, PUT) -/

/-- One response of `DescribeLogStreams`: the code reads `data.logStreams || []`. -/
structure StreamPage (σ τ : Type) where
  logStreams : Option (List σ)
  nextToken : Option τ
deriving DecidableEq

/-- The PUT handler: a single `DescribeLogStreamsCommand({logGroupName, limit: 50})`
call — no `nextToken` is passed and no loop is run — returning
`data.logStreams || []`. -/
def putHandler {σ τ : Type} (backend : String → Int → Option τ → StreamPage σ τ)
    (logGroupName : String) : List σ :=
  ((backend logGroupName 50 none).logStreams).getD []

/-! ## POST /api/cloudwatch — search (route.ts, POST) -/

/-- The POST handler's limit computation `limit && limit <= 10000 ? limit : 100`:
an absent limit and `0` are falsy, any other value is kept when `≤ 10000`. -/
def effectiveLimit (limit : Option Int) : Int :=
  match limit with
  | none => 100
  | some v => if v ≠ 0 ∧ v ≤ 10000 then v else 100

/-- The fields destructured from the POST request body. -/
structure PostBody where
  logGroupName : String
  logStreamName : Option String
  filterPattern : Option String
  startTime : Option Int
  endTime : Option Int
  limit : Option Int
deriving DecidableEq

/-- The `FilterLogEventsCommandInput` actually sent to the backend; `none`
models a field omitted from the object by the `...(cond && {field})` spreads. -/
structure FilterLogEventsInput where
  logGroupName : String
  limit : Int
  logStreamNames : Option (List String)
  filterPattern : Option String
  startTime : Option Int
  endTime : Option Int
deriving DecidableEq

/-- JavaScript truthiness for an optional string: absent and `""` are falsy. -/
def truthyStr (s : Option String) : Option String :=
  match s with
  | none => none
  | some v => if v = "" then none else some v

/-- JavaScript truthiness for an optional number: absent and `0` are falsy. -/
def truthyInt (n : Option Int) : Option Int :=
  match n with
  | none => none
  | some v => if v = 0 then none else some v

/-- The POST handler's `params` object: each `...(x && {field: x})` spread
contributes its field only when `x` is truthy. -/
def buildFilterParams (b : PostBody) : FilterLogEventsInput :=
  { logGroupName := b.logGroupName
    limit := effectiveLimit b.limit
    logStreamNames := (truthyStr b.logStreamName).map (fun s => [s])
    filterPattern := truthyStr b.filterPattern
    startTime := truthyInt b.startTime
    endTime := truthyInt b.endTime }

/-! ## C3: GET aggregates every page in order -/

lemma getLoop_paged {α τ : Type} (backend : Option τ → GroupPage α τ)
    (pages : List (List α)) (tk : Nat → τ) (hshape : PagedShape backend pages tk) :
    ∀ fuel k acc, 0 < k → k < pages.length → pages.length - k ≤ fuel →
      getLoop backend fuel (some (tk k)) acc = acc ++ (pages.drop k).flatten := by
  intro fuel
  induction fuel with
  | zero => intro k acc _ hk2 hf; omega
  | succ fuel ih =>
    intro k acc hk1 hk2 hf
    have hb := hshape.2 k hk2 hk1
    have hgetD : pages.getD k [] = pages[k] := List.getD_eq_getElem pages [] hk2
    have hdrop : pages.drop k = pages[k] :: pages.drop (k + 1) :=
      List.drop_eq_getElem_cons hk2
    by_cases hlt : k + 1 < pages.length
    · have : getLoop backend (fuel + 1) (some (tk k)) acc =
          getLoop backend fuel (some (tk (k + 1))) (acc ++ pages.getD k []) := by
        simp only [getLoop, hb, hlt, if_pos, Option.getD_some]
      rw [this, ih (k + 1) _ (by omega) hlt (by omega), hgetD, hdrop,
        List.flatten_cons, List.append_assoc]
    · have hnone : (if k + 1 < pages.length then some (tk (k + 1)) else none) = none := by
        simp [hlt]
      have : getLoop backend (fuel + 1) (some (tk k)) acc = acc ++ pages.getD k [] := by
        simp only [getLoop, hb, hnone, Option.getD_some]
      rw [this, hgetD, hdrop]
      have : pages.drop (k + 1) = [] := List.drop_eq_nil_of_le (by omega)
      simp [this]

/-- C3: for every paged backend emitting pages `s1..sn` where only the n-th
response omits a continuation token, the GET handler threads each returned
`nextToken` into the next request and returns exactly `s1 ++ ... ++ sn`,
page order and in-page item order preserved, for every n. -/
theorem getHandler_concatenatesAllPages {α τ : Type}
    (backend : Option τ → GroupPage α τ) (pages : List (List α)) (tk : Nat → τ)
    (hne : pages ≠ []) (hshape : PagedShape backend pages tk) :
    getHandler backend pages.length = pages.flatten := by
  have hlen : 0 < pages.length := List.length_pos.mpr hne
  obtain ⟨fuel, hfuel⟩ : ∃ fuel, pages.length = fuel + 1 :=
    ⟨pages.length - 1, by omega⟩
  have hgetD : pages.getD 0 [] = pages[0] := List.getD_eq_getElem pages [] hlen
  have hdrop : pages.drop 0 = pages[0] :: pages.drop 1 :=
    List.drop_eq_getElem_cons hlen
  unfold getHandler
  rw [hfuel]
  by_cases h1 : 1 < pages.length
  · have : getLoop backend (fuel + 1) none [] =
        getLoop backend fuel (some (tk 1)) ([] ++ pages.getD 0 []) := by
      simp only [getLoop, hshape.1, h1, if_pos, Option.getD_some]
    rw [this, getLoop_paged backend pages tk hshape fuel 1 _ (by omega) h1 (by omega)]
    have : pages.flatten = pages[0] ++ (pages.drop 1).flatten := by
      conv_lhs => rw [show pages = pages.drop 0 from rfl, hdrop]
      simp
    rw [this, hgetD]
    simp
  · have hnone : (if 1 < pages.length then some (tk 1) else none) = none := by
      simp [h1]
    have : getLoop backend (fuel + 1) none [] = [] ++ pages.getD 0 [] := by
      simp only [getLoop, hshape.1, hnone, Option.getD_some]
    rw [this, hgetD]
    have hlen1 : pages.length = 1 := by omega
    have : pages.drop 1 = [] := List.drop_eq_nil_of_le (by omega)
    conv_rhs => rw [show pages = pages.drop 0 from rfl, hdrop, this]
    simp

/-- A concrete three-page backend used to exercise `getHandler_concatenatesAllPages`. -/
def demoGroupBackend : Option Nat → GroupPage String Nat :=
  fun tok =>
    match tok with
    | none => ⟨some ["a", "b"], some 1⟩
    | some 1 => ⟨some ["c"], some 2⟩
    | some 2 => ⟨some ["d", "e"], none⟩
    | some _ => ⟨some [], none⟩

theorem getHandler_concatenatesAllPages_witness :
    [["a", "b"], ["c"], ["d", "e"]] ≠ ([] : List (List String)) ∧
      getHandler demoGroupBackend 3 = ["a", "b", "c", "d", "e"] := by
  refine ⟨by decide, ?_⟩
  have h := getHandler_concatenatesAllPages demoGroupBackend
    [["a", "b"], ["c"], ["d", "e"]] (fun i => i) (by decide) ⟨by decide, by decide⟩
  simpa using h

/-! ## C4: PUT does not aggregate pages -/

/-- A concrete stream backend whose listing spans two pages: the first
response carries a continuation token leading to a second page. -/
def twoPageStreamBackend : String → Int → Option Nat → StreamPage String Nat :=
  fun _ _ tok =>
    match tok with
    | none => ⟨some ["stream-1"], some 1⟩
    | some _ => ⟨some ["stream-2"], none⟩

/-- C4 counterexample: against a backend whose stream listing spans two pages,
the PUT handler returns only the first page; `stream-2` is missing, so the
returned list does not contain every stream of the group. -/
theorem putHandler_missesSecondPage :
    putHandler twoPageStreamBackend "g" = ["stream-1"] ∧
      "stream-2" ∉ putHandler twoPageStreamBackend "g" ∧
      putHandler twoPageStreamBackend "g" ≠ ["stream-1", "stream-2"] := by
  decide

/-- C4 amended: the PUT handler issues exactly one `DescribeLogStreams` call,
with limit 50 and no continuation token, and returns exactly that first
response's `logStreams`; any stream absent from the first page is absent from
the response, even when a continuation token signals further pages. -/
theorem putHandler_returnsFirstPageOnly {σ τ : Type} [DecidableEq σ]
    (backend : String → Int → Option τ → StreamPage σ τ) (g : String)
    (p1 : List σ) (t : τ) (h0 : backend g 50 none = ⟨some p1, some t⟩) :
    putHandler backend g = p1 ∧ ∀ x, x ∉ p1 → x ∉ putHandler backend g := by
  unfold putHandler
  rw [h0]
  exact ⟨rfl, fun x hx => hx⟩

theorem putHandler_returnsFirstPageOnly_witness :
    putHandler twoPageStreamBackend "g" = ["stream-1"] ∧
      ∀ x, x ∉ ["stream-1"] → x ∉ putHandler twoPageStreamBackend "g" :=
  putHandler_returnsFirstPageOnly twoPageStreamBackend "g" ["stream-1"] 1 rfl

/-! ## C5: the POST limit computation -/

/-- C5 counterexample: the claim predicts the default 100 for a negative limit
and for a limit of exactly 1 (both outside `(1, 10000]`), but the code's
truthiness test `limit && limit <= 10000` forwards `-5` and `1` unchanged. -/
theorem effectiveLimit_forwardsNegativeAndOne :
    effectiveLimit (some (-5)) = -5 ∧ effectiveLimit (some (-5)) ≠ 100 ∧
      effectiveLimit (some 1) = 1 ∧ effectiveLimit (some 1) ≠ 100 := by
  decide

/-- C5 amended: the effective limit equals the supplied limit whenever that
limit is nonzero and at most 10000 (this includes 1 and negative values), and
equals 100 when the limit is absent, zero, or above 10000; consequently the
forwarded limit is never zero and never exceeds 10000. -/
theorem effectiveLimit_spec :
    effectiveLimit none = 100 ∧
      (∀ v : Int, v ≠ 0 → v ≤ 10000 → effectiveLimit (some v) = v) ∧
      effectiveLimit (some 0) = 100 ∧
      (∀ v : Int, 10000 < v → effectiveLimit (some v) = 100) ∧
      (∀ l : Option Int, effectiveLimit l ≠ 0 ∧ effectiveLimit l ≤ 10000) := by
  refine ⟨rfl, ?_, rfl, ?_, ?_⟩
  · intro v hv hle
    simp [effectiveLimit, hv, hle]
  · intro v hv
    have : ¬(v ≠ 0 ∧ v ≤ 10000) := by omega
    simp [effectiveLimit, this]
  · intro l
    match l with
    | none => exact ⟨by decide, by decide⟩
    | some v =>
      by_cases h : v ≠ 0 ∧ v ≤ 10000
      · simp [effectiveLimit, h]
      · simp [effectiveLimit, h]

theorem effectiveLimit_spec_witness :
    effectiveLimit (some 500) = 500 ∧ effectiveLimit (some 20000) = 100 ∧
      effectiveLimit (some 7) ≠ 0 :=
  ⟨effectiveLimit_spec.2.1 500 (by decide) (by decide),
    effectiveLimit_spec.2.2.2.1 20000 (by decide),
    (effectiveLimit_spec.2.2.2.2 (some 7)).1⟩

/-! ## C10: falsy POST body fields are omitted -/

/-- C10: every falsy provided field of the POST body is treated as absent:
`startTime = 0`, `endTime = 0`, an empty `filterPattern`, and an empty
`logStreamName` each produce the same backend request as the field missing
entirely; in particular a lower time bound of exactly the Unix epoch (0) is
indistinguishable from no lower bound. -/
theorem buildFilterParams_falsyIsAbsent (b : PostBody) :
    buildFilterParams { b with startTime := some 0 } =
        buildFilterParams { b with startTime := none } ∧
      buildFilterParams { b with endTime := some 0 } =
        buildFilterParams { b with endTime := none } ∧
      buildFilterParams { b with filterPattern := some "" } =
        buildFilterParams { b with filterPattern := none } ∧
      buildFilterParams { b with logStreamName := some "" } =
        buildFilterParams { b with logStreamName := none } := by
  refine ⟨?_, ?_, ?_, ?_⟩ <;> simp [buildFilterParams, truthyInt, truthyStr]

/-! ## Frontend data model (AdvancedSearch.tsx interfaces) -/

/-- The `LogGroup` interface of CloudWatchLogViewer. -/
structure LogGroup where
  logGroupName : String
  creationTime : Int
  retentionInDays : Option Int
  storedBytes : Option Int
deriving DecidableEq

/-- The `LogStream` interface of CloudWatchLogViewer. -/
structure LogStream where
  logStreamName : String
  creationTime : Int
  lastEventTime : Option Int
  lastIngestionTime : Option Int
  storedBytes : Option Int
deriving DecidableEq

/-- The `LogEvent` interface of CloudWatchLogViewer. -/
structure LogEvent where
  timestamp : Int
  message : String
  logStreamName : String
  eventId : String
  ingestionTime : Int
deriving DecidableEq

/-! ## The debounced-query filters (filteredLogGroups / filteredLogStreams) -/

/-- Whether `hay` starts with `needle`, on character lists. -/
def startsWithChars : List Char → List Char → Bool
  | [], _ => true
  | _ :: _, [] => false
  | c :: cs, h :: hs => c == h && startsWithChars cs hs

/-- JavaScript's `String.prototype.includes`: substring containment
(the empty needle is contained in everything). -/
def containsSub (needle : List Char) : List Char → Bool
  | [] => needle.isEmpty
  | h :: hs => startsWithChars needle (h :: hs) || containsSub needle hs

/-- `hay.includes(needle)` on strings. -/
def strIncludes (hay needle : String) : Bool :=
  containsSub needle.data hay.data

/-- `String.prototype.toLowerCase`, character by character. -/
def jsToLower (s : String) : String :=
  String.mk (s.data.map Char.toLower)

/-- `filteredLogGroups`: an empty (settled) query returns the collection
unchanged; otherwise keep the groups whose lower-cased name includes the
lower-cased query. -/
def filteredLogGroups (logGroups : List LogGroup) (q : String) : List LogGroup :=
  if q = "" then logGroups
  else logGroups.filter
    (fun group => strIncludes (jsToLower group.logGroupName) (jsToLower q))

/-- `filteredLogStreams`: same filtering over stream names. -/
def filteredLogStreams (logStreams : List LogStream) (q : String) : List LogStream :=
  if q = "" then logStreams
  else logStreams.filter
    (fun stream => strIncludes (jsToLower stream.logStreamName) (jsToLower q))

lemma startsWithChars_iff (needle : List Char) :
    ∀ hay, startsWithChars needle hay = true ↔ ∃ r, hay = needle ++ r := by
  induction needle with
  | nil => intro hay; simp [startsWithChars]
  | cons c cs ih =>
    intro hay
    cases hay with
    | nil =>
      simp [startsWithChars]
    | cons h hs =>
      simp only [startsWithChars, Bool.and_eq_true, beq_iff_eq, ih hs]
      constructor
      · rintro ⟨hc, r, hr⟩
        exact ⟨r, by simp [hc, hr]⟩
      · rintro ⟨r, hr⟩
        simp only [List.cons_append, List.cons_eq_cons] at hr
        exact ⟨hr.1.symm, r, hr.2⟩

lemma containsSub_iff (needle : List Char) :
    ∀ hay, containsSub needle hay = true ↔ ∃ l r, hay = l ++ needle ++ r := by
  intro hay
  induction hay with
  | nil =>
    simp only [containsSub, List.isEmpty_iff]
    constructor
    · rintro rfl; exact ⟨[], [], rfl⟩
    · rintro ⟨l, r, hr⟩
      rcases List.append_eq_nil.mp (List.append_eq_nil.mp hr.symm).1 with ⟨-, h2⟩
      exact h2
  | cons h hs ih =>
    simp only [containsSub, Bool.or_eq_true, startsWithChars_iff, ih]
    constructor
    · rintro (⟨r, hr⟩ | ⟨l, r, hr⟩)
      · exact ⟨[], r, by simp [hr]⟩
      · exact ⟨h :: l, r, by simp [hr]⟩
    · rintro ⟨l, r, hr⟩
      cases l with
      | nil =>
        left; exact ⟨r, by simpa using hr⟩
      | cons x l' =>
        right
        simp only [List.cons_append, List.cons_eq_cons] at hr
        exact ⟨l', r, hr.2⟩

/-- C6: for every collection and settled query `q`: an empty `q` returns the
full collection unchanged in original order; otherwise the filtered view is a
subsequence of the original (order preserved) holding exactly the entities
whose lower-cased name contains the lower-cased query as a substring.  Both
the group filter and the stream filter behave this way. -/
theorem filtered_caseInsensitiveContainment
    (logGroups : List LogGroup) (logStreams : List LogStream) (q : String) :
    (q = "" → filteredLogGroups logGroups q = logGroups ∧
        filteredLogStreams logStreams q = logStreams)
    ∧ List.Sublist (filteredLogGroups logGroups q) logGroups
    ∧ List.Sublist (filteredLogStreams logStreams q) logStreams
    ∧ (q ≠ "" →
        (∀ g, g ∈ filteredLogGroups logGroups q ↔ g ∈ logGroups ∧
          ∃ l r, (jsToLower g.logGroupName).data = l ++ (jsToLower q).data ++ r)
        ∧ (∀ s, s ∈ filteredLogStreams logStreams q ↔ s ∈ logStreams ∧
          ∃ l r, (jsToLower s.logStreamName).data = l ++ (jsToLower q).data ++ r)) := by
  refine ⟨?_, ?_, ?_, ?_⟩
  · intro hq
    simp [filteredLogGroups, filteredLogStreams, hq]
  · by_cases hq : q = ""
    · simp [filteredLogGroups, hq]
    · simp only [filteredLogGroups, hq, if_neg]
      exact List.filter_sublist logGroups
  · by_cases hq : q = ""
    · simp [filteredLogStreams, hq]
    · simp only [filteredLogStreams, hq, if_neg]
      exact List.filter_sublist logStreams
  · intro hq
    constructor
    · intro g
      simp only [filteredLogGroups, hq, if_false, List.mem_filter, strIncludes,
        containsSub_iff]
    · intro s
      simp only [filteredLogStreams, hq, if_false, List.mem_filter, strIncludes,
        containsSub_iff]

/-- The spec's filter-correctness example collection. -/
def demoGroups : List LogGroup :=
  [⟨"Alpha", 0, none, none⟩, ⟨"beta", 0, none, none⟩, ⟨"ALPHABET", 0, none, none⟩]

theorem filtered_caseInsensitiveContainment_witness :
    filteredLogGroups demoGroups "" = demoGroups
    ∧ ((⟨"ALPHABET", 0, none, none⟩ : LogGroup) ∈ filteredLogGroups demoGroups "alpha" ↔
        (⟨"ALPHABET", 0, none, none⟩ : LogGroup) ∈ demoGroups ∧
        ∃ l r, (jsToLower "ALPHABET").data = l ++ (jsToLower "alpha").data ++ r)
    ∧ filteredLogGroups demoGroups "alpha" =
        [⟨"Alpha", 0, none, none⟩, ⟨"ALPHABET", 0, none, none⟩] :=
  ⟨(filtered_caseInsensitiveContainment demoGroups [] "").1 rfl |>.1,
    ((filtered_caseInsensitiveContainment demoGroups [] "alpha").2.2.2
      (by decide)).1 ⟨"ALPHABET", 0, none, none⟩,
    by decide⟩

/-! ## useDebounce (utils.ts) -/

/-- Timer semantics of `useDebounce`: each raw input `(t, v)` schedules
`setDebouncedValue(v)` via `setTimeout` for time `t + d`; the effect cleanup
runs `clearTimeout` when the next raw input arrives, so the pending emission
survives only if the next input time is at least `t + d` (or there is no next
input).  Inputs are given in arrival order with their times. -/
def debounceEmissions (d : Nat) : List (Nat × String) → List (Nat × String)
  | [] => []
  | [(t, v)] => [(t + d, v)]
  | (t, v) :: (t2, v2) :: rest =>
    (if t + d ≤ t2 then [(t + d, v)] else []) ++
      debounceEmissions d ((t2, v2) :: rest)

/-- Every consecutive pair of raw inputs is separated by less than `d`. -/
def gapsBelow (d : Nat) : List (Nat × String) → Bool
  | [] => true
  | [_] => true
  | (t1, _) :: (t2, v2) :: rest =>
    decide (t2 < t1 + d) && gapsBelow d ((t2, v2) :: rest)

lemma debounceEmissions_sound (d : Nat) :
    ∀ inputs : List (Nat × String),
      List.Pairwise (fun a b => a.1 < b.1) inputs →
      ∀ e ∈ debounceEmissions d inputs, ∃ p ∈ inputs, e = (p.1 + d, p.2) ∧
        ∀ q ∈ inputs, p.1 < q.1 → p.1 + d ≤ q.1 := by
  intro inputs
  induction inputs with
  | nil => intro _ e he; simp [debounceEmissions] at he
  | cons head rest ih =>
    intro hsorted e he
    obtain ⟨t, v⟩ := head
    rw [List.pairwise_cons] at hsorted
    cases rest with
    | nil =>
      simp only [debounceEmissions, List.mem_singleton] at he
      refine ⟨(t, v), List.mem_singleton_self _, he, ?_⟩
      intro q hq hlt
      rcases List.mem_singleton.mp hq with rfl
      omega
    | cons nxt rest' =>
      obtain ⟨t2, v2⟩ := nxt
      rw [debounceEmissions, List.mem_append] at he
      rcases he with he | he
      · by_cases hle : t + d ≤ t2
        · simp only [hle, if_pos, List.mem_singleton] at he
          refine ⟨(t, v), List.mem_cons_self _ _, he, ?_⟩
          intro q hq hlt
          rcases List.mem_cons.mp hq with rfl | hq'
          · exact absurd hlt (lt_irrefl _)
          · rcases List.mem_cons.mp hq' with rfl | hq''
            · exact hle
            · have h1 : t2 < q.1 := (List.pairwise_cons.mp hsorted.2).1 q hq''
              show t + d ≤ q.1
              omega
        · simp only [hle, if_neg, not_false_iff] at he
          simp at he
      · obtain ⟨p, hp, hpe, hpq⟩ := ih hsorted.2 e he
        refine ⟨p, List.mem_cons_of_mem _ hp, hpe, ?_⟩
        intro q hq hlt
        rcases List.mem_cons.mp hq with rfl | hq'
        · have h1 : (t, v).1 < p.1 := hsorted.1 p hp
          omega
        · exact hpq q hq' hlt

lemma debounceEmissions_coalesce (d : Nat) :
    ∀ (inputs : List (Nat × String)) (hne : inputs ≠ []),
      gapsBelow d inputs = true →
      debounceEmissions d inputs =
        [((inputs.getLast hne).1 + d, (inputs.getLast hne).2)] := by
  intro inputs
  induction inputs with
  | nil => intro hne; exact absurd rfl hne
  | cons head rest ih =>
    intro _ hgaps
    obtain ⟨t, v⟩ := head
    cases rest with
    | nil => simp [debounceEmissions, List.getLast]
    | cons nxt rest' =>
      obtain ⟨t2, v2⟩ := nxt
      simp only [gapsBelow, Bool.and_eq_true, decide_eq_true_eq] at hgaps
      have hne' : ((t2, v2) :: rest' : List (Nat × String)) ≠ [] := by simp
      have hlt : ¬ (t + d ≤ t2) := by omega
      rw [debounceEmissions]
      simp only [hlt, if_neg, not_false_iff, List.nil_append]
      rw [ih hne' hgaps.2, List.getLast_cons hne']

/-- C8: a settled value is emitted only `d` time units after a raw input that
no newer raw value supersedes within `d` (each new raw value clears the
pending timer); consequently raw inputs all fired within less than `d` of
each other coalesce into exactly one settled value — the last one, emitted at
time exactly (hence at least) last-input-time plus `d`. -/
theorem debounce_settlesOnlyAfterQuiescence (d : Nat)
    (inputs : List (Nat × String))
    (hsorted : List.Pairwise (fun a b => a.1 < b.1) inputs) :
    (∀ e ∈ debounceEmissions d inputs, ∃ p ∈ inputs, e = (p.1 + d, p.2) ∧
        ∀ q ∈ inputs, p.1 < q.1 → p.1 + d ≤ q.1)
    ∧ (∀ hne : inputs ≠ [], gapsBelow d inputs = true →
        debounceEmissions d inputs =
          [((inputs.getLast hne).1 + d, (inputs.getLast hne).2)]) :=
  ⟨debounceEmissions_sound d inputs hsorted,
    fun hne hgaps => debounceEmissions_coalesce d inputs hne hgaps⟩

theorem debounce_settlesOnlyAfterQuiescence_witness :
    debounceEmissions 300 [(0, "a"), (100, "ab"), (200, "abc")] =
      [(500, "abc")] := by
  have h := (debounce_settlesOnlyAfterQuiescence 300
    [(0, "a"), (100, "ab"), (200, "abc")] (by decide)).2 (by decide) (by decide)
  simpa using h

/-! ## CloudWatchLogViewer selection state machine -/

/-- The component state of `CloudWatchLogViewer` relevant to selection and
search.  The nullable `selectedLogGroup`/`selectedLogStream` are initialised
to `""`; both `null` and `""` are falsy wherever the code tests them. -/
structure ViewerState where
  logGroups : List LogGroup
  logStreams : List LogStream
  selectedLogGroup : String
  selectedLogStream : String
  filterPattern : String
  startTime : String
  endTime : String
  logEvents : List LogEvent
  loading : Bool
  error : String
deriving DecidableEq

/-- The initial `useState` values. -/
def initialState : ViewerState :=
  { logGroups := []
    logStreams := []
    selectedLogGroup := ""
    selectedLogStream := ""
    filterPattern := ""
    startTime := ""
    endTime := ""
    logEvents := []
    loading := false
    error := "" }

/-- The `searchParams` object built by `searchLogs`: each optional field is
spread in only when truthy; the datetime-local strings are parsed with
`new Date(x).getTime()`, abstracted as `dateParse`; `limit` is always 100. -/
def searchRequestBody (dateParse : String → Int) (s : ViewerState) : PostBody :=
  { logGroupName := s.selectedLogGroup
    logStreamName :=
      if s.selectedLogStream = "" then none else some s.selectedLogStream
    filterPattern := if s.filterPattern = "" then none else some s.filterPattern
    startTime := if s.startTime = "" then none else some (dateParse s.startTime)
    endTime := if s.endTime = "" then none else some (dateParse s.endTime)
    limit := some 100 }

/-- An HTTP request issued by the component. -/
inductive ViewerRequest where
  | fetchStreams (logGroupName : String)
  | search (body : PostBody)
deriving DecidableEq

/-- One event of the single-threaded event loop:

* `selectGroup g` — the group selection changes and the group-change effect
  runs: when `g` is truthy it calls `fetchLogStreams g` (which sets `loading`
  and clears `error` and issues the PUT request), otherwise it clears
  `logStreams` and `selectedLogStream`;
* `issueSearch` — `searchLogs` runs up to its `await`: it validates the
  group, sets `loading`, clears `error` and issues the POST request;
* `completeStreamsOk` / `completeSearchOk` — a network response arrives and
  the continuation runs `setLogStreams(...)` / `setLogEvents(...)` and
  `setLoading(false)`.  The continuations consult nothing issued-time beyond
  the response payload — there is no generation check. -/
inductive ViewerAction where
  | selectGroup (g : String)
  | issueSearch
  | completeStreamsOk (streams : List LogStream)
  | completeSearchOk (events : List LogEvent)
deriving DecidableEq

/-- The state transition of one event, together with the request it issues. -/
def step (dateParse : String → Int) (s : ViewerState) :
    ViewerAction → ViewerState × Option ViewerRequest
  | .selectGroup g =>
    if g ≠ "" then
      ({ s with selectedLogGroup := g, loading := true, error := "" },
        some (.fetchStreams g))
    else
      ({ s with selectedLogGroup := g, logStreams := [], selectedLogStream := "" },
        none)
  | .issueSearch =>
    if s.selectedLogGroup = "" then
      ({ s with error := "Please select a log group" }, none)
    else
      ({ s with loading := true, error := "" },
        some (.search (searchRequestBody dateParse s)))
  | .completeStreamsOk streams =>
    ({ s with logStreams := streams, loading := false }, none)
  | .completeSearchOk events =>
    ({ s with logEvents := events, loading := false }, none)

/-- Run a sequence of events from a state. -/
def runActions (dateParse : String → Int) (s : ViewerState) :
    List ViewerAction → ViewerState
  | [] => s
  | a :: rest => runActions dateParse (step dateParse s a).1 rest

/-- The payload of the last search completion in an event sequence, if any. -/
def lastSearchPayload : List ViewerAction → Option (List LogEvent)
  | [] => none
  | a :: rest =>
    match lastSearchPayload rest with
    | some es => some es
    | none =>
      match a with
      | .completeSearchOk es => some es
      | _ => none

/-! ## C1: there is no generation guard on search completions -/

/-- A first search response. -/
def evA : LogEvent := ⟨1, "A", "s", "eA", 1⟩

/-- A second search response. -/
def evB : LogEvent := ⟨2, "B", "s", "eB", 2⟩

/-- A state with a group selected, from which two searches race. -/
def searchRaceState : ViewerState :=
  { initialState with selectedLogGroup := "group-1" }

/-- C1 counterexample: issue `search(A)` then `search(B)`; B's response
arrives first, A's second.  The stored event list then reflects A's result,
not B's — the completion of the superseded search is applied, so the claimed
generation guard does not exist. -/
theorem search_staleResponseApplied_counterexample :
    (runActions (fun _ => 0) searchRaceState
        [.issueSearch, .issueSearch,
          .completeSearchOk [evB], .completeSearchOk [evA]]).logEvents = [evA]
    ∧ (runActions (fun _ => 0) searchRaceState
        [.issueSearch, .issueSearch,
          .completeSearchOk [evB], .completeSearchOk [evA]]).logEvents ≠ [evB] := by
  decide

/-- C1 amended: the component applies search completions unconditionally in
completion order (there is no generation counter): after any sequence of
events, the stored event list equals the payload of the last search
completion in the sequence (unchanged if there is none).  In particular,
after `search(A)` then `search(B)`, the list reflects whichever response
arrived last — A's when A's response arrives after B's. -/
theorem search_appliesLastCompletion (dateParse : String → Int)
    (s : ViewerState) (actions : List ViewerAction) :
    (runActions dateParse s actions).logEvents =
      (lastSearchPayload actions).getD s.logEvents := by
  induction actions generalizing s with
  | nil => rfl
  | cons a rest ih =>
    have h1 : runActions dateParse s (a :: rest) =
        runActions dateParse (step dateParse s a).1 rest := rfl
    rw [h1, ih]
    cases hl : lastSearchPayload rest with
    | some es => simp [lastSearchPayload, hl]
    | none =>
      cases a with
      | selectGroup g =>
        by_cases hg : g = "" <;> simp [lastSearchPayload, hl, step, hg]
      | issueSearch =>
        by_cases hg : s.selectedLogGroup = "" <;>
          simp [lastSearchPayload, hl, step, hg]
      | completeStreamsOk streams => simp [lastSearchPayload, hl, step]
      | completeSearchOk events => simp [lastSearchPayload, hl, step]

/-! ## C2: what the group-change effect actually clears -/

/-- A stream listed under the previously selected group. -/
def demoStream : LogStream := ⟨"stream-a", 0, none, none, none⟩

/-- A state with a group, a stream, and a loaded event list selected. -/
def groupChangeState : ViewerState :=
  { initialState with
    selectedLogGroup := "group-1"
    selectedLogStream := "stream-a"
    logStreams := [demoStream]
    logEvents := [evA] }

/-- C2 counterexample: changing the selected group to the non-empty
`"group-2"` leaves both the current stream selection and the stored event
list untouched — the claimed clearing does not happen. -/
theorem selectGroup_doesNotClear_counterexample :
    (step (fun _ => 0) groupChangeState
        (.selectGroup "group-2")).1.selectedLogStream = "stream-a"
    ∧ (step (fun _ => 0) groupChangeState
        (.selectGroup "group-2")).1.logEvents = [evA]
    ∧ (step (fun _ => 0) groupChangeState
        (.selectGroup "group-2")).1.selectedLogStream ≠ ""
    ∧ (step (fun _ => 0) groupChangeState
        (.selectGroup "group-2")).1.logEvents ≠ [] := by
  decide

/-- C2 amended: on a group change the effect sets the current group and never
touches the stored event list; when the new name is non-empty it issues
exactly one stream fetch for that group and leaves the current stream and the
stream collection unchanged (until the fetch completes); when the new name is
empty it clears the stream collection and the current stream and issues no
fetch. -/
theorem selectGroup_behavior (dateParse : String → Int) (s : ViewerState)
    (g : String) :
    (step dateParse s (.selectGroup g)).1.selectedLogGroup = g
    ∧ (step dateParse s (.selectGroup g)).1.logEvents = s.logEvents
    ∧ (g ≠ "" →
        (step dateParse s (.selectGroup g)).2 = some (.fetchStreams g)
        ∧ (step dateParse s (.selectGroup g)).1.selectedLogStream =
            s.selectedLogStream
        ∧ (step dateParse s (.selectGroup g)).1.logStreams = s.logStreams)
    ∧ (g = "" →
        (step dateParse s (.selectGroup g)).2 = none
        ∧ (step dateParse s (.selectGroup g)).1.logStreams = []
        ∧ (step dateParse s (.selectGroup g)).1.selectedLogStream = "") := by
  by_cases hg : g = "" <;> simp [step, hg]

theorem selectGroup_behavior_witness :
    ("group-2" ≠ "" ∧
      (step (fun _ => 0) groupChangeState (.selectGroup "group-2")).2 =
        some (.fetchStreams "group-2")) ∧
    ((step (fun _ => 0) groupChangeState (.selectGroup "")).2 = none) :=
  ⟨⟨by decide,
      ((selectGroup_behavior (fun _ => 0) groupChangeState "group-2").2.2.1
        (by decide)).1⟩,
    ((selectGroup_behavior (fun _ => 0) groupChangeState "").2.2.2 rfl).1⟩

/-! ## C9: searching with no group selected fails fast -/

/-- C9: when no group is selected, `searchLogs` sets the validation error
message and returns before the `fetch`: no HTTP request is issued and every
state field other than the error message is unchanged. -/
theorem search_missingGroup_failsFast (dateParse : String → Int)
    (s : ViewerState) (h : s.selectedLogGroup = "") :
    step dateParse s .issueSearch =
        ({ s with error := "Please select a log group" }, none)
    ∧ (step dateParse s .issueSearch).2 = none
    ∧ (step dateParse s .issueSearch).1.logEvents = s.logEvents
    ∧ (step dateParse s .issueSearch).1.selectedLogGroup = s.selectedLogGroup
    ∧ (step dateParse s .issueSearch).1.selectedLogStream = s.selectedLogStream
    ∧ (step dateParse s .issueSearch).1.logStreams = s.logStreams
    ∧ (step dateParse s .issueSearch).1.error = "Please select a log group" := by
  simp [step, h]

theorem search_missingGroup_failsFast_witness :
    initialState.selectedLogGroup = "" ∧
      step (fun _ => 0) initialState .issueSearch =
        ({ initialState with error := "Please select a log group" }, none) :=
  ⟨rfl, (search_missingGroup_failsFast (fun _ => 0) initialState rfl).1⟩

/-! ## Dropdown active-index / scroll-to-index logic -/

/-- The per-dropdown state: `isOpen` (`logGroupOpen`), the keyboard/mouse
active index (`logGroupActiveIndex`, initialised to 0), and the current
filtered item count (`filteredLogGroups.length`). -/
structure DropdownState where
  isOpen : Bool
  activeIndex : Int
  itemCount : Nat
deriving DecidableEq

/-- The events that drive the dropdown state:

* `arrowDown` / `arrowUp` — the `onKeyDown` handler: opens the dropdown and
  moves the active index with `Math.min(prev + 1, itemCount - 1)` /
  `Math.max(prev - 1, 0)` against the item count current at keypress time;
* `mouseEnter i` — the `onMouseEnter` of a rendered option row sets the
  active index to that row's index (rendered rows always have `i < itemCount`,
  which the guard records);
* `setItemCount n` — the filtered collection changes length (e.g. the
  debounced query narrows it); nothing in the code re-clamps the active index;
* `focus` / `blur` — open and close the dropdown. -/
inductive DropdownEvent where
  | arrowDown
  | arrowUp
  | mouseEnter (i : Nat)
  | setItemCount (n : Nat)
  | focus
  | blur
deriving DecidableEq

/-- One dropdown state transition. -/
def dropStep (s : DropdownState) : DropdownEvent → DropdownState
  | .arrowDown =>
    { s with isOpen := true
             activeIndex := min (s.activeIndex + 1) ((s.itemCount : Int) - 1) }
  | .arrowUp =>
    { s with isOpen := true, activeIndex := max (s.activeIndex - 1) 0 }
  | .mouseEnter i =>
    if i < s.itemCount then { s with activeIndex := (i : Int) } else s
  | .setItemCount n => { s with itemCount := n }
  | .focus => { s with isOpen := true }
  | .blur => { s with isOpen := false }

/-- Run a sequence of dropdown events. -/
def runDropdown (s : DropdownState) : List DropdownEvent → DropdownState
  | [] => s
  | e :: rest => runDropdown (dropStep s e) rest

/-- The scroll-to-active-index effect: when the dropdown is open and the
filtered count is positive it calls `scrollToIndex(activeIndex)` — with the
active index as it is, unclamped; otherwise no scroll happens. -/
def scrollTarget (s : DropdownState) : Option Int :=
  if s.isOpen ∧ 0 < s.itemCount then some s.activeIndex else none

/-! ## C7: the active index is not re-clamped when the count changes -/

/-- C7 counterexample: from a 10-item dropdown, hovering row 5 and then
narrowing the filter to 2 items makes the effect call `scrollToIndex 5` with
`itemCount = 2` — the index is not re-clamped to `[0, itemCount-1]`; and
pressing ArrowDown while the list is empty stores `-1`
(`Math.min(0 + 1, 0 - 1)`), so once items reappear the effect scrolls to the
negative index `-1`. -/
theorem scrollTarget_unclamped_counterexample :
    scrollTarget (runDropdown ⟨false, 0, 10⟩
        [.focus, .mouseEnter 5, .setItemCount 2]) = some 5
    ∧ ¬ ((5 : Int) <
        ((runDropdown ⟨false, 0, 10⟩
          [.focus, .mouseEnter 5, .setItemCount 2]).itemCount : Int))
    ∧ scrollTarget (runDropdown ⟨false, 0, 10⟩
        [.focus, .setItemCount 0, .arrowDown, .setItemCount 3]) = some (-1) := by
  decide

/-- C7 amended: no scroll occurs while the item count is zero, and the
arrow-key handlers do clamp the active index against the item count current
at keypress time; but a count change leaves the active index untouched, so
the index passed to `scrollToIndex` can be stale — at or above the new
`itemCount` after the list narrows, or `-1` after an ArrowDown on an empty
list. -/
theorem dropdown_clampOnlyOnKeys (s : DropdownState) (n : Nat) :
    (s.itemCount = 0 → scrollTarget s = none)
    ∧ (dropStep s (.setItemCount n)).activeIndex = s.activeIndex
    ∧ (0 ≤ s.activeIndex → s.activeIndex < (s.itemCount : Int) →
        0 ≤ (dropStep s .arrowDown).activeIndex
        ∧ (dropStep s .arrowDown).activeIndex < (s.itemCount : Int)
        ∧ 0 ≤ (dropStep s .arrowUp).activeIndex
        ∧ (dropStep s .arrowUp).activeIndex < (s.itemCount : Int)) := by
  refine ⟨?_, rfl, ?_⟩
  · intro h0
    simp [scrollTarget, h0]
  · intro h1 h2
    refine ⟨?_, ?_, ?_, ?_⟩ <;> simp [dropStep] <;> omega

theorem dropdown_clampOnlyOnKeys_witness :
    ((dropStep ⟨true, 3, 10⟩ (.setItemCount 4)).activeIndex = 3)
    ∧ 0 ≤ (dropStep ⟨true, 3, 10⟩ .arrowDown).activeIndex
    ∧ scrollTarget ⟨true, 3, 0⟩ = none :=
  ⟨(dropdown_clampOnlyOnKeys ⟨true, 3, 10⟩ 4).2.1,
    ((dropdown_clampOnlyOnKeys ⟨true, 3, 10⟩ 4).2.2 (by decide) (by decide)).1,
    (dropdown_clampOnlyOnKeys ⟨true, 3, 0⟩ 0).1 rfl⟩
